import Mathlib

/-!
Verification of the nixysa static glue runtime: the PPAPI resolution engine
(`StaticObject` / `StaticObjectWrapper` in static_glue/ppapi/static_object.cc)
and the NPAPI value marshalling helpers (static_glue/npapi/common.cc).

The object graph is built once at startup and required to be acyclic, so a
`StaticObject` is embedded as an inductive value: a map of named children
(`namespace_objects_`, a hash map embedded as an association list with
overwrite-on-insert) together with an optional base-class link
(`base_class_`).  `pp::Var` is a tagged value; the engine operations thread
the exception and result slots explicitly, returning the boolean success
flag together with the final contents of the two slots.
-/

namespace Glue

/-- `hash_map::find`: the value bound to `k`, or `none`. -/
def mapFind {α : Type} (k : String) : List (String × α) → Option α
  | [] => none
  | (k', v) :: rest => if k' = k then some v else mapFind k rest

/-- `hash_map::operator[] = v`: bind `k` to `v`, overwriting any previous
binding (last write wins). -/
def mapInsert {α : Type} (k : String) (v : α) : List (String × α) → List (String × α)
  | [] => [(k, v)]
  | (k', v') :: rest => if k' = k then (k, v) :: rest else (k', v') :: mapInsert k v rest

/-- A `glue::globals::StaticObject`: the `namespace_objects_` child map and
the `base_class_` link (`NULL` embedded as `none`).  The inductive structure
reflects the build-time acyclicity requirement on the base chain. -/
inductive StaticObject : Type where
  | mk (namespace_objects : List (String × StaticObject))
       (base_class : Option StaticObject)

/-- The `namespace_objects_` field. -/
def StaticObject.namespace_objects : StaticObject → List (String × StaticObject)
  | .mk ns _ => ns

/-- The `base_class_` field. -/
def StaticObject.base_class : StaticObject → Option StaticObject
  | .mk _ b => b

/-- A `StaticObjectWrapper`: the plugin-instance back-reference (abstracted
to an identifier) and the wrapped `StaticObject`. -/
structure StaticObjectWrapper : Type where
  instance_ : Nat
  static_object : StaticObject

/-- A `pp::Var`: the host's tagged dynamic value.  `pp::Var()` is
`undefined`; `pp::VarPrivate(instance, wrapper)` is `object`. -/
inductive Var : Type where
  | undefined
  | null
  | boolean (b : Bool)
  | number (n : Int)
  | string (s : String)
  | object (w : StaticObjectWrapper)

/-- `pp::Var::is_null`. -/
def Var.is_null : Var → Bool
  | .null => true
  | _ => false

/-- `pp::Var::is_string`. -/
def Var.is_string : Var → Bool
  | .string _ => true
  | _ => false

/-- `pp::Var::is_undefined`. -/
def Var.is_undefined : Var → Bool
  | .undefined => true
  | _ => false

/-- `pp::Var::AsString` (only meaningful on string vars). -/
def Var.AsString : Var → String
  | .string s => s
  | _ => ""

namespace StaticObject

/-- `StaticObject::AddNamespaceObject`: `namespace_objects_[name] = object`. -/
def AddNamespaceObject (s : StaticObject) (name : String) (object : StaticObject) :
    StaticObject :=
  match s with
  | .mk ns b => .mk (mapInsert name object ns) b

/-- `StaticObject::SetBaseClass`. -/
def SetBaseClass (s : StaticObject) (base_class : Option StaticObject) :
    StaticObject :=
  match s with
  | .mk ns _ => .mk ns base_class

/-- `StaticObject::GetNamespaceObject`: direct lookup in `namespace_objects_`
only, `NULL` (`none`) if absent. -/
def GetNamespaceObject (s : StaticObject) (namespace_name : String) :
    Option StaticObject :=
  mapFind namespace_name s.namespace_objects

/-- `StaticObject::CreateWrapper`: allocates a plain wrapper around `this`. -/
def CreateWrapper (s : StaticObject) (instance_ : Nat) : StaticObjectWrapper :=
  ⟨instance_, s⟩

/-- `StaticObject::HasMethodInner`: the base implementation defers entirely
to the base class, `false` at the end of the chain. -/
def HasMethodInner : StaticObject → String → Bool
  | .mk _ (some bc), method => HasMethodInner bc method
  | .mk _ none, _ => false

/-- `StaticObject::HasPropertyInner`: `true` iff the name is a key of the
local child map, else recursively at the base class.  (The source's single
body is split on `base_class_` so that the recursion is structural.) -/
def HasPropertyInner : StaticObject → String → Bool
  | .mk ns (some bc), property =>
    match mapFind property ns with
    | some _ => true
    | none => HasPropertyInner bc property
  | .mk ns none, property =>
    match mapFind property ns with
    | some _ => true
    | none => false

/-- `StaticObject::GetPropertyInner`: returns the success flag together with
the final contents of the `exception` and `result` slots.  A direct child is
returned as a freshly created wrapper; otherwise the base class is tried;
at the end of the chain the call fails, writing "unknown property" into the
exception slot only if that slot is still null. -/
def GetPropertyInner : StaticObject → Nat → String → Var → Var → Bool × Var × Var
  | .mk ns (some bc), instance_, property, exception, result =>
    match mapFind property ns with
    | some child => (true, exception, Var.object (child.CreateWrapper instance_))
    | none => GetPropertyInner bc instance_ property exception result
  | .mk ns none, instance_, property, exception, result =>
    match mapFind property ns with
    | some child => (true, exception, Var.object (child.CreateWrapper instance_))
    | none =>
      if exception.is_null then
        (false, Var.string "unknown property", result)
      else
        (false, exception, result)

/-- `StaticObject::GetAllPropertyNames`: the base implementation only
recurses into the base class (which appends nothing); returns the final
contents of the `names` and `exception` slots. -/
def GetAllPropertyNames : StaticObject → List Var → Var → List Var × Var
  | .mk _ (some bc), names, exception => GetAllPropertyNames bc names exception
  | .mk _ none, names, exception => (names, exception)

/-- `StaticObject::SetPropertyInner`: delegates to the base class; at the
end of the chain it fails, writing "unknown property" into the exception
slot only if that slot is still null. -/
def SetPropertyInner : StaticObject → String → Var → Var → Bool × Var
  | .mk _ (some bc), name, value, exception => SetPropertyInner bc name value exception
  | .mk _ none, _, _, exception =>
    if exception.is_null then
      (false, Var.string "unknown property")
    else
      (false, exception)

/-- `StaticObject::CallInner`: delegates to the base class; at the end of
the chain it fails with "method does not exist" under the same null-slot
guard.  Returns the success flag and the final exception and result slots. -/
def CallInner : StaticObject → Nat → String → List Var → Var → Var → Bool × Var × Var
  | .mk _ (some bc), instance_, method, args, exception, result =>
    CallInner bc instance_ method args exception result
  | .mk _ none, _, _, _, exception, result =>
    if exception.is_null then
      (false, Var.string "method does not exist", result)
    else
      (false, exception, result)

/-- `StaticObject::ConstructInner`: the base implementation unconditionally
writes "missing constructor" into the exception slot and fails. -/
def ConstructInner (_s : StaticObject) (_instance : Nat) (_args : List Var)
    (_exception result : Var) : Bool × Var × Var :=
  (false, Var.string "missing constructor", result)

end StaticObject

namespace StaticObjectWrapper

/-- `StaticObjectWrapper::HasMethod`: returns the flag and the final
exception slot. -/
def HasMethod (w : StaticObjectWrapper) (method : Var) (exception : Var) :
    Bool × Var :=
  if method.is_string then
    (w.static_object.HasMethodInner method.AsString, exception)
  else
    (false, Var.string "method name is not a string")

/-- `StaticObjectWrapper::HasProperty`. -/
def HasProperty (w : StaticObjectWrapper) (name : Var) (exception : Var) :
    Bool × Var :=
  if name.is_string then
    (w.static_object.HasPropertyInner name.AsString, exception)
  else
    (false, Var.string "property name is not a string")

/-- `StaticObjectWrapper::GetProperty`: returns the result var and the
final exception slot. -/
def GetProperty (w : StaticObjectWrapper) (name : Var) (exception : Var) :
    Var × Var :=
  let result := Var.undefined
  if ¬ name.is_string then
    (result, Var.string "property name is not a string")
  else
    let r := w.static_object.GetPropertyInner w.instance_ name.AsString exception result
    (r.2.2, r.2.1)

/-- `StaticObjectWrapper::SetProperty`: returns the final exception slot. -/
def SetProperty (w : StaticObjectWrapper) (name : Var) (value : Var)
    (exception : Var) : Var :=
  if name.is_string then
    (w.static_object.SetPropertyInner name.AsString value exception).2
  else
    Var.string "property name is not a string"

/-- `StaticObjectWrapper::Construct`: returns the result var and the final
exception slot. -/
def Construct (w : StaticObjectWrapper) (args : List Var) (exception : Var) :
    Var × Var :=
  let result := Var.undefined
  let r := w.static_object.ConstructInner w.instance_ args exception result
  (r.2.2, r.2.1)

/-- `StaticObjectWrapper::Call`: an undefined method name is routed to
`Construct`; a non-string name is a type-mismatch error; otherwise the call
is dispatched through `CallInner`. -/
def Call (w : StaticObjectWrapper) (method : Var) (args : List Var)
    (exception : Var) : Var × Var :=
  let result := Var.undefined
  if method.is_undefined then
    w.Construct args exception
  else if ¬ method.is_string then
    (result, Var.string "method name is not a string")
  else
    let r := w.static_object.CallInner w.instance_ method.AsString args exception result
    (r.2.2, r.2.1)

end StaticObjectWrapper

namespace StaticObject

/-- The node reached by following `base_class_` links `n` times, `none` if
the chain ends earlier. -/
def baseAt : StaticObject → Nat → Option StaticObject
  | s, 0 => some s
  | .mk _ (some bc), n + 1 => baseAt bc n
  | .mk _ none, _ + 1 => none

/-- Cut the base link at depth `k`: the node at depth `k` keeps its children
but loses its base class; used to express removing a link of the chain. -/
def cutBase : StaticObject → Nat → StaticObject
  | .mk ns _, 0 => .mk ns none
  | .mk ns (some bc), k + 1 => .mk ns (some (cutBase bc k))
  | .mk ns none, _ + 1 => .mk ns none

end StaticObject

/-! ### NPAPI value marshalling (static_glue/npapi/common.cc)

Strings are byte sequences (each byte below 256); wide characters are the
signed 32-bit `wchar_t` values, embedded as `Int`.  The text-conversion
routines model the branch of the source that is pure in-repository code:
the Linux branch, which widens each (signed) `char` to `wchar_t` and
narrows it back.  The zero-length guard that both directions share sits,
as in the source, before any per-character conversion. -/

/-- Widening a Linux `char` (signed, 8-bit) to `wchar_t`: bytes at or above
128 become negative values. -/
def byteToWideChar (b : Nat) : Int :=
  if b < 128 then (b : Int) else (b : Int) - 256

/-- Narrowing a `wchar_t` back to an 8-bit `char`, kept as the byte value
modulo 256. -/
def wideCharToByte (w : Int) : Nat :=
  (w % 256).toNat

/-- `UTF8ToString16` (Linux branch): zero-length input yields the empty
wide string immediately; otherwise every byte is widened.  `none` would
model a `false` return, which this branch never produces. -/
def UTF8ToString16 (bytes : List Nat) : Option (List Int) :=
  if bytes.length = 0 then
    some []
  else
    some (bytes.map byteToWideChar)

/-- `String16ToUTF8` (Linux branch): zero-length input yields the empty
narrow string immediately; otherwise every wide character is narrowed. -/
def String16ToUTF8 (wchars : List Int) : Option (List Nat) :=
  if wchars.length = 0 then
    some []
  else
    some (wchars.map wideCharToByte)

/-- An `NPVariant` as the marshalling helpers produce it: void (from
`VOID_TO_NPVARIANT`) or a string of bytes with explicit length (from
`STRINGN_TO_NPVARIANT`). -/
inductive NPVariant : Type where
  | void
  | npstring (chars : List Nat)

/-- `memcpy(dst, src, n)`: the first `n` bytes of `dst` are replaced by the
first `n` bytes of `src`. -/
def memcpy (dst src : List Nat) (n : Nat) : List Nat :=
  src.take n ++ dst.drop n

/-- `StringToNPVariant`: requests exactly `in.size()` bytes from the host
allocator (`NPN_MemAlloc`, modelled as a function from the requested size
to an optional buffer).  A null buffer makes the variant void and the call
fail; otherwise the input is copied in and the variant holds the first
`length` bytes of the buffer. -/
def StringToNPVariant (alloc : Nat → Option (List Nat)) (in_ : List Nat) :
    Bool × NPVariant :=
  let length := in_.length
  match alloc length with
  | none => (false, NPVariant.void)
  | some chars => (true, NPVariant.npstring ((memcpy chars in_ length).take length))

/-- `String16ToNPVariant`: converts through `String16ToUTF8`, making the
variant void on conversion failure, else marshalling the narrow string. -/
def String16ToNPVariant (alloc : Nat → Option (List Nat)) (in_ : List Int) :
    Bool × NPVariant :=
  match String16ToUTF8 in_ with
  | none => (false, NPVariant.void)
  | some out8 => StringToNPVariant alloc out8

/-- An `NPIdentifier`: interned from a string (`NPN_GetStringIdentifier`)
or from an integer (`NPN_GetIntIdentifier`). -/
inductive NPIdentifier : Type where
  | str (name : String)
  | int (index : Int)

/-- The host calls the get helpers depend on: `NPN_HasProperty` and
`NPN_GetProperty` (the latter returning its success flag and the value it
wrote into the output variant). -/
structure NPHost : Type where
  hasProperty : NPIdentifier → Bool
  getProperty : NPIdentifier → Bool × NPVariant

/-- `GetNPObjectProperty`: interns the name, probes existence first and
returns `false` (leaving the output untouched) when the probe fails, else
returns exactly the host fetch's flag and written value. -/
def GetNPObjectProperty (host : NPHost) (name : String) (output : NPVariant) :
    Bool × NPVariant :=
  let identifier := NPIdentifier.str name
  let result := host.hasProperty identifier
  if ¬ result then
    (false, output)
  else
    host.getProperty identifier

/-- `GetNPArrayProperty`: interns the index; unless the has-property
workaround is active, probes existence first and returns `false` when the
probe fails; then returns exactly the host fetch's flag and written value.
Under the workaround the probe is skipped entirely. -/
def GetNPArrayProperty (workaround : Bool) (host : NPHost) (index : Int)
    (output : NPVariant) : Bool × NPVariant :=
  let identifier := NPIdentifier.int index
  if ¬ workaround then
    let result := host.hasProperty identifier
    if ¬ result then
      (false, output)
    else
      host.getProperty identifier
  else
    host.getProperty identifier

/-! ### Lemmas about the map embedding and the base-chain walk -/

theorem mapFind_mapInsert_self {α : Type} (k : String) (v : α)
    (l : List (String × α)) : mapFind k (mapInsert k v l) = some v := by
  induction l with
  | nil => simp [mapInsert, mapFind]
  | cons hd tl ih =>
    obtain ⟨k', v'⟩ := hd
    by_cases h : k' = k
    · simp [mapInsert, mapFind, h]
    · simp [mapInsert, mapFind, h, ih]

namespace StaticObject

/-- Induction along the base chain. -/
theorem chain_induction {P : StaticObject → Prop}
    (hnil : ∀ ns, P (.mk ns none))
    (hcons : ∀ ns bc, P bc → P (.mk ns (some bc))) :
    ∀ s, P s
  | .mk ns none => hnil ns
  | .mk ns (some bc) => hcons ns bc (chain_induction hnil hcons bc)

theorem hasPropertyInner_base (ns : List (String × StaticObject))
    (bc : StaticObject) (property : String) :
    HasPropertyInner (.mk ns (some bc)) property =
      (match mapFind property ns with
      | some _ => true
      | none => HasPropertyInner bc property) := by
  rw [HasPropertyInner]

theorem hasPropertyInner_nil (ns : List (String × StaticObject))
    (property : String) :
    HasPropertyInner (.mk ns none) property =
      (match mapFind property ns with
      | some _ => true
      | none => false) := by
  rw [HasPropertyInner]

theorem getPropertyInner_base (ns : List (String × StaticObject))
    (bc : StaticObject) (instance_ : Nat) (property : String)
    (exception result : Var) :
    GetPropertyInner (.mk ns (some bc)) instance_ property exception result =
      (match mapFind property ns with
      | some child => (true, exception, Var.object (child.CreateWrapper instance_))
      | none => GetPropertyInner bc instance_ property exception result) := by
  rw [GetPropertyInner]

theorem getPropertyInner_nil (ns : List (String × StaticObject))
    (instance_ : Nat) (property : String) (exception result : Var) :
    GetPropertyInner (.mk ns none) instance_ property exception result =
      (match mapFind property ns with
      | some child => (true, exception, Var.object (child.CreateWrapper instance_))
      | none =>
        if exception.is_null then
          (false, Var.string "unknown property", result)
        else
          (false, exception, result)) := by
  rw [GetPropertyInner]

theorem hasPropertyInner_of_baseAt (name : String) :
    ∀ (k : Nat) (s m : StaticObject), s.baseAt k = some m →
      (mapFind name m.namespace_objects).isSome = true →
      s.HasPropertyInner name = true := by
  intro k
  induction k with
  | zero =>
    intro s m hz hfind
    obtain ⟨ns, b⟩ := s
    simp only [baseAt, Option.some.injEq] at hz
    subst hz
    simp only [namespace_objects] at hfind
    cases hf : mapFind name ns with
    | some v =>
      cases b with
      | none => rw [hasPropertyInner_nil, hf]
      | some bc => rw [hasPropertyInner_base, hf]
    | none => rw [hf] at hfind; simp at hfind
  | succ k ih =>
    intro s m hchain hfind
    obtain ⟨ns, b⟩ := s
    cases b with
    | none => simp [baseAt] at hchain
    | some bc =>
      simp only [baseAt] at hchain
      have hbc := ih bc m hchain hfind
      rw [hasPropertyInner_base]
      cases hf : mapFind name ns with
      | some v => rfl
      | none => exact hbc

theorem baseAt_of_hasPropertyInner (name : String) :
    ∀ s : StaticObject, s.HasPropertyInner name = true →
      ∃ k m, s.baseAt k = some m ∧
        (mapFind name m.namespace_objects).isSome = true := by
  intro s
  induction s using chain_induction with
  | hnil ns =>
    intro h
    rw [hasPropertyInner_nil] at h
    cases hf : mapFind name ns with
    | some v =>
      exact ⟨0, .mk ns none, rfl, by simp [namespace_objects, hf]⟩
    | none => rw [hf] at h; simp at h
  | hcons ns bc ih =>
    intro h
    rw [hasPropertyInner_base] at h
    cases hf : mapFind name ns with
    | some v =>
      exact ⟨0, .mk ns (some bc), rfl, by simp [namespace_objects, hf]⟩
    | none =>
      rw [hf] at h
      obtain ⟨k, m, hchain, hfind⟩ := ih h
      exact ⟨k + 1, m, by simpa [baseAt] using hchain, hfind⟩

theorem getPropertyInner_found (instance_ : Nat) (name : String)
    (exception result : Var) :
    ∀ s : StaticObject, s.HasPropertyInner name = true →
      ∃ w, s.GetPropertyInner instance_ name exception result =
        (true, exception, Var.object w) := by
  intro s
  induction s using chain_induction with
  | hnil ns =>
    intro h
    rw [hasPropertyInner_nil] at h
    cases hf : mapFind name ns with
    | some child =>
      exact ⟨child.CreateWrapper instance_, by rw [getPropertyInner_nil, hf]⟩
    | none => rw [hf] at h; simp at h
  | hcons ns bc ih =>
    intro h
    rw [hasPropertyInner_base] at h
    cases hf : mapFind name ns with
    | some child =>
      exact ⟨child.CreateWrapper instance_, by rw [getPropertyInner_base, hf]⟩
    | none =>
      rw [hf] at h
      obtain ⟨w, hw⟩ := ih h
      refine ⟨w, ?_⟩
      rw [getPropertyInner_base, hf]
      exact hw

theorem getPropertyInner_not_found (instance_ : Nat) (name : String)
    (exception result : Var) :
    ∀ s : StaticObject, s.HasPropertyInner name = false →
      s.GetPropertyInner instance_ name exception result =
        (false,
         if exception.is_null then Var.string "unknown property" else exception,
         result) := by
  intro s
  induction s using chain_induction with
  | hnil ns =>
    intro h
    rw [hasPropertyInner_nil] at h
    cases hf : mapFind name ns with
    | some child => rw [hf] at h; simp at h
    | none =>
      rw [getPropertyInner_nil, hf]
      by_cases hnull : exception.is_null <;> simp [hnull]
  | hcons ns bc ih =>
    intro h
    rw [hasPropertyInner_base] at h
    cases hf : mapFind name ns with
    | some child => rw [hf] at h; simp at h
    | none =>
      rw [hf] at h
      rw [getPropertyInner_base, hf]
      exact ih h

theorem setPropertyInner_not_null (name : String) (value : Var)
    (exception : Var) (hnull : exception.is_null = false) :
    ∀ s : StaticObject,
      s.SetPropertyInner name value exception = (false, exception) := by
  intro s
  induction s using chain_induction with
  | hnil ns => simp [SetPropertyInner, hnull]
  | hcons ns bc ih => simpa [SetPropertyInner] using ih

theorem callInner_not_null (instance_ : Nat) (method : String)
    (args : List Var) (exception result : Var)
    (hnull : exception.is_null = false) :
    ∀ s : StaticObject,
      s.CallInner instance_ method args exception result =
        (false, exception, result) := by
  intro s
  induction s using chain_induction with
  | hnil ns => simp [CallInner, hnull]
  | hcons ns bc ih => simpa [CallInner] using ih

theorem callInner_result_frame (instance_ : Nat) (method : String)
    (args : List Var) (exception result : Var) :
    ∀ s : StaticObject,
      (s.CallInner instance_ method args exception result).2.2 = result := by
  intro s
  induction s using chain_induction with
  | hnil ns =>
    by_cases hnull : exception.is_null <;> simp [CallInner, hnull]
  | hcons ns bc ih => simpa [CallInner] using ih

theorem getAllPropertyNames_frame (names : List Var) (exception : Var) :
    ∀ s : StaticObject, s.GetAllPropertyNames names exception = (names, exception) := by
  intro s
  induction s using chain_induction with
  | hnil ns => simp [GetAllPropertyNames]
  | hcons ns bc ih => simpa [GetAllPropertyNames] using ih

theorem baseAt_cutBase :
    ∀ (k j : Nat) (s m' : StaticObject), (s.cutBase k).baseAt j = some m' →
      ∃ m, s.baseAt j = some m ∧
        m'.namespace_objects = m.namespace_objects ∧ j ≤ k := by
  intro k
  induction k with
  | zero =>
    intro j s m' h
    obtain ⟨ns, b⟩ := s
    cases j with
    | zero =>
      simp only [cutBase, baseAt, Option.some.injEq] at h
      subst h
      exact ⟨.mk ns b, by simp [baseAt], rfl, Nat.le_refl 0⟩
    | succ j => simp [cutBase, baseAt] at h
  | succ k ih =>
    intro j s m' h
    obtain ⟨ns, b⟩ := s
    cases b with
    | none =>
      cases j with
      | zero =>
        simp only [cutBase, baseAt, Option.some.injEq] at h
        subst h
        exact ⟨.mk ns none, by simp [baseAt], rfl, Nat.zero_le _⟩
      | succ j => simp [cutBase, baseAt] at h
    | some bc =>
      cases j with
      | zero =>
        simp only [cutBase, baseAt, Option.some.injEq] at h
        subst h
        exact ⟨.mk ns (some bc), by simp [baseAt], rfl, Nat.zero_le _⟩
      | succ j =>
        simp only [cutBase, baseAt] at h
        obtain ⟨m, hm, hns, hjk⟩ := ih j bc m' h
        exact ⟨m, by simpa [baseAt] using hm, hns, Nat.succ_le_succ hjk⟩

end StaticObject

/-! ### Lemmas about the text conversion -/

theorem wideCharToByte_byteToWideChar (b : Nat) (h : b < 256) :
    wideCharToByte (byteToWideChar b) = b := by
  unfold wideCharToByte byteToWideChar
  split <;> omega

theorem roundtrip_map (l : List Nat) (h : ∀ b ∈ l, b < 256) :
    (l.map byteToWideChar).map wideCharToByte = l := by
  induction l with
  | nil => rfl
  | cons hd tl ih =>
    simp only [List.map_cons]
    rw [wideCharToByte_byteToWideChar hd (h hd (by simp)),
      ih (fun b hb => h b (by simp [hb]))]

/-! ### Claims -/

open StaticObject

/-- C1: on an acyclic base chain of depth `n`, a property registered only on
the ancestor at depth `n` is reported present by `HasPropertyInner` and
successfully returned by `GetPropertyInner` on the leaf; if the base link is
cut at any point of the chain before that ancestor, the lookup reports the
property absent. -/
theorem chain_lookup_resolves_property_at_depth (instance_ : Nat)
    (s anc : StaticObject) (n : Nat) (name : String) (exception result : Var)
    (hchain : s.baseAt n = some anc)
    (hreg : (mapFind name anc.namespace_objects).isSome = true)
    (honly : ∀ k, k < n → ∀ m, s.baseAt k = some m →
      mapFind name m.namespace_objects = none) :
    s.HasPropertyInner name = true ∧
    (s.GetPropertyInner instance_ name exception result).1 = true ∧
    ∀ k, k < n → (s.cutBase k).HasPropertyInner name = false := by
  have hhas := hasPropertyInner_of_baseAt name n s anc hchain hreg
  obtain ⟨w, hw⟩ := getPropertyInner_found instance_ name exception result s hhas
  refine ⟨hhas, by rw [hw], ?_⟩
  intro k hk
  cases hcase : (s.cutBase k).HasPropertyInner name
  · rfl
  · exfalso
    obtain ⟨j, m', hj, hfind⟩ := baseAt_of_hasPropertyInner name _ hcase
    obtain ⟨m, hm, hns, hjk⟩ := baseAt_cutBase k j s m' hj
    have hnone : mapFind name m.namespace_objects = none :=
      honly j (Nat.lt_of_le_of_lt hjk hk) m hm
    rw [hns, hnone] at hfind
    simp at hfind

/-- Witness for C1: a chain of depth 2 whose only registration of "p" is on
the depth-2 ancestor. -/
theorem chain_lookup_resolves_property_at_depth_witness :
    (StaticObject.mk []
        (some (.mk [] (some (.mk [("p", .mk [] none)] none))))).HasPropertyInner
      "p" = true ∧
    ((StaticObject.mk []
        (some (.mk [] (some (.mk [("p", .mk [] none)] none))))).GetPropertyInner
      0 "p" Var.null Var.undefined).1 = true ∧
    ((StaticObject.mk []
        (some (.mk [] (some (.mk [("p", .mk [] none)] none))))).cutBase
      1).HasPropertyInner "p" = false := by
  have h := chain_lookup_resolves_property_at_depth 0
    (.mk [] (some (.mk [] (some (.mk [("p", .mk [] none)] none)))))
    (.mk [("p", .mk [] none)] none) 2 "p" Var.null Var.undefined
    (by simp [baseAt])
    (by simp [namespace_objects, mapFind])
    (by
      intro k hk m hm
      interval_cases k
      · simp only [baseAt, Option.some.injEq] at hm
        rw [← hm]; rfl
      · simp only [baseAt, Option.some.injEq] at hm
        rw [← hm]; rfl)
  exact ⟨h.1, h.2.1, h.2.2 1 (by omega)⟩

/-- C2: on a name found nowhere on the chain, `GetPropertyInner` fails and
writes "unknown property" only when the slot was null on entry; two nested
unknown-property lookups leave exactly the one message "unknown property"
in the slot. -/
theorem getProperty_unknown_single_exception (i1 i2 : Nat)
    (s t : StaticObject) (name1 name2 : String) (exception res1 res2 : Var)
    (h1 : s.HasPropertyInner name1 = false)
    (h2 : t.HasPropertyInner name2 = false) :
    (s.GetPropertyInner i1 name1 exception res1).1 = false ∧
    (s.GetPropertyInner i1 name1 exception res1).2.1 =
      (if exception.is_null then Var.string "unknown property" else exception) ∧
    (s.GetPropertyInner i1 name1 Var.null res1).2.1 =
      Var.string "unknown property" ∧
    (t.GetPropertyInner i2 name2
        (s.GetPropertyInner i1 name1 Var.null res1).2.1 res2).2.1 =
      Var.string "unknown property" := by
  have e1 := getPropertyInner_not_found i1 name1 exception res1 s h1
  have e2 := getPropertyInner_not_found i1 name1 Var.null res1 s h1
  have hfirst : (s.GetPropertyInner i1 name1 Var.null res1).2.1 =
      Var.string "unknown property" := by
    rw [e2]; rfl
  refine ⟨by rw [e1], by rw [e1], hfirst, ?_⟩
  rw [hfirst]
  have e3 := getPropertyInner_not_found i2 name2 (Var.string "unknown property")
    res2 t h2
  rw [e3]
  rfl

/-- Witness for C2: two nested unknown lookups on childless, baseless
nodes. -/
theorem getProperty_unknown_single_exception_witness :
    ((StaticObject.mk [] none).GetPropertyInner 0 "a" Var.null Var.undefined).2.1 =
      Var.string "unknown property" ∧
    ((StaticObject.mk [] none).GetPropertyInner 1 "b"
        ((StaticObject.mk [] none).GetPropertyInner 0 "a" Var.null
          Var.undefined).2.1 Var.undefined).2.1 =
      Var.string "unknown property" := by
  have h := getProperty_unknown_single_exception 0 1 (.mk [] none) (.mk [] none)
    "a" "b" Var.null Var.undefined Var.undefined
    (by rw [hasPropertyInner_nil]; rfl)
    (by rw [hasPropertyInner_nil]; rfl)
  exact ⟨h.2.2.1, h.2.2.2⟩

/-- C3: `ConstructInner` on a node with no constructor override fails with
"missing constructor" for every instance, argument list and prior content
of the exception slot. -/
theorem constructInner_always_missing_constructor (s : StaticObject)
    (instance_ : Nat) (args : List Var) (exception result : Var) :
    s.ConstructInner instance_ args exception result =
      (false, Var.string "missing constructor", result) := rfl

/-- C4: the wrapper's `Call` with an undefined method name produces exactly
the result and exception of the wrapper's `Construct` on the same
arguments. -/
theorem call_undefined_routes_to_construct (w : StaticObjectWrapper)
    (args : List Var) (exception : Var) :
    w.Call Var.undefined args exception = w.Construct args exception := rfl

/-- Counterexample to C5: with the non-null value "prior" already in the
exception slot, `ConstructInner` overwrites it with "missing constructor",
and the wrapper's type-mismatch check in `HasMethod` overwrites it with
"method name is not a string" — first-writer-wins does not hold for those
two entry points. -/
theorem first_writer_wins_counterexample :
    (Var.string "prior").is_null = false ∧
    ((StaticObject.mk [] none).ConstructInner 0 [] (Var.string "prior")
        Var.undefined).2.1 = Var.string "missing constructor" ∧
    Var.string "missing constructor" ≠ Var.string "prior" ∧
    ((StaticObjectWrapper.mk 0 (.mk [] none)).HasMethod (Var.number 3)
        (Var.string "prior")).2 = Var.string "method name is not a string" ∧
    Var.string "method name is not a string" ≠ Var.string "prior" := by
  refine ⟨rfl, rfl, ?_, rfl, ?_⟩
  · intro h
    injection h with h
    exact absurd h (by decide)
  · intro h
    injection h with h
    exact absurd h (by decide)

/-- C5 amended: first-writer-wins holds for `GetPropertyInner`,
`SetPropertyInner` and `CallInner` — a non-null exception slot is returned
unchanged — while `ConstructInner` and the wrapper's type-mismatch checks
overwrite the slot unconditionally. -/
theorem first_writer_wins_inner_ops (s : StaticObject) (instance_ : Nat)
    (name method : String) (value : Var) (args : List Var)
    (exception result : Var) (hnn : exception.is_null = false) :
    (s.GetPropertyInner instance_ name exception result).2.1 = exception ∧
    (s.SetPropertyInner name value exception).2 = exception ∧
    (s.CallInner instance_ method args exception result).2.1 = exception := by
  refine ⟨?_, ?_, ?_⟩
  · cases hcase : s.HasPropertyInner name
    · rw [getPropertyInner_not_found instance_ name exception result s hcase]
      simp [hnn]
    · obtain ⟨w, hw⟩ := getPropertyInner_found instance_ name exception result s hcase
      rw [hw]
  · rw [setPropertyInner_not_null name value exception hnn s]
  · rw [callInner_not_null instance_ method args exception result hnn s]

/-- Witness for the amended C5: a non-null slot survives all three
chain-walking operations on a concrete node. -/
theorem first_writer_wins_inner_ops_witness :
    ((StaticObject.mk [] none).GetPropertyInner 0 "a" (Var.string "pre")
        Var.undefined).2.1 = Var.string "pre" ∧
    ((StaticObject.mk [] none).SetPropertyInner "a" Var.null
        (Var.string "pre")).2 = Var.string "pre" ∧
    ((StaticObject.mk [] none).CallInner 0 "m" [] (Var.string "pre")
        Var.undefined).2.1 = Var.string "pre" :=
  first_writer_wins_inner_ops (.mk [] none) 0 "a" "m" Var.null []
    (Var.string "pre") Var.undefined rfl

/-- C6: two `AddNamespaceObject` registrations under the same name make
`GetNamespaceObject` return the second object (last write wins), and
`GetNamespaceObject` is a direct lookup only: a name absent from the node's
own children is not found even when a base-chain ancestor has it. -/
theorem addNamespaceObject_last_write_wins (s A B : StaticObject)
    (ns : List (String × StaticObject)) (b : Option StaticObject)
    (name : String) (habsent : mapFind name ns = none) :
    ((s.AddNamespaceObject "x" A).AddNamespaceObject "x" B).GetNamespaceObject
      "x" = some B ∧
    (StaticObject.mk ns b).GetNamespaceObject name = none := by
  constructor
  · obtain ⟨ns0, b0⟩ := s
    simp [AddNamespaceObject, GetNamespaceObject, namespace_objects,
      mapFind_mapInsert_self]
  · simp [GetNamespaceObject, namespace_objects, habsent]

/-- Witness for C6: the direct-lookup half is exercised on a node whose
base-chain ancestor does have the name "x". -/
theorem addNamespaceObject_last_write_wins_witness :
    (((StaticObject.mk [] none).AddNamespaceObject "x"
        (.mk [] none)).AddNamespaceObject "x"
        (.mk [("b", .mk [] none)] none)).GetNamespaceObject "x" =
      some (.mk [("b", .mk [] none)] none) ∧
    (StaticObject.mk []
        (some (.mk [("x", .mk [] none)] none))).GetNamespaceObject "x" =
      none :=
  addNamespaceObject_last_write_wins (.mk [] none) (.mk [] none)
    (.mk [("b", .mk [] none)] none) []
    (some (.mk [("x", .mk [] none)] none)) "x" rfl

/-- C7: converting any byte string (in particular any valid UTF-8 input)
to the wide representation and back succeeds and yields the original
bytes, and a zero-length input is trivially successful in both directions,
yielding the empty string before any per-character conversion. -/
theorem utf8_string16_roundtrip (bytes : List Nat)
    (hvalid : ∀ b ∈ bytes, b < 256) :
    (∃ w, UTF8ToString16 bytes = some w ∧ String16ToUTF8 w = some bytes) ∧
    UTF8ToString16 [] = some [] ∧ String16ToUTF8 [] = some [] := by
  refine ⟨?_, rfl, rfl⟩
  cases bytes with
  | nil => exact ⟨[], rfl, rfl⟩
  | cons hd tl =>
    refine ⟨(hd :: tl).map byteToWideChar, ?_, ?_⟩
    · simp [UTF8ToString16]
    · simp only [String16ToUTF8, List.length_map, List.length_cons]
      rw [if_neg (Nat.succ_ne_zero _)]
      rw [roundtrip_map _ hvalid]

/-- Witness for C7: a three-byte string with a byte above 127. -/
theorem utf8_string16_roundtrip_witness :
    (∃ w, UTF8ToString16 [104, 200, 0] = some w ∧
      String16ToUTF8 w = some [104, 200, 0]) ∧
    UTF8ToString16 [] = some [] ∧ String16ToUTF8 [] = some [] :=
  utf8_string16_roundtrip [104, 200, 0] (by decide)

/-- C8: `StringToNPVariant` requests exactly `in.size()` bytes from the
host allocator; a null buffer yields a void variant and failure, any other
buffer yields success with a string variant holding exactly the input
bytes (the zero-length case included). -/
theorem stringToNPVariant_alloc_exact (alloc : Nat → Option (List Nat))
    (in_ : List Nat)
    (hcontract : ∀ n buf, alloc n = some buf → buf.length = n) :
    (alloc in_.length = none →
      StringToNPVariant alloc in_ = (false, NPVariant.void)) ∧
    (∀ buf, alloc in_.length = some buf →
      StringToNPVariant alloc in_ = (true, NPVariant.npstring in_)) := by
  constructor
  · intro hnone
    simp [StringToNPVariant, hnone]
  · intro buf hsome
    have hlen : buf.length = in_.length := hcontract _ _ hsome
    simp only [StringToNPVariant, hsome]
    unfold memcpy
    rw [List.take_length, List.take_left]

/-- Witness for C8: a succeeding and a failing allocator on the same
input, and the zero-length case with a succeeding allocator. -/
theorem stringToNPVariant_alloc_exact_witness :
    StringToNPVariant (fun n => some (List.replicate n 7)) [3, 1, 4] =
      (true, NPVariant.npstring [3, 1, 4]) ∧
    StringToNPVariant (fun _ => none) [3, 1, 4] = (false, NPVariant.void) ∧
    StringToNPVariant (fun n => some (List.replicate n 7)) [] =
      (true, NPVariant.npstring []) := by
  have hc : ∀ n buf, (fun n => some (List.replicate n 7)) n = some buf →
      buf.length = n := by
    intro n buf h
    injection h with h
    rw [← h]
    simp
  refine ⟨?_, ?_, ?_⟩
  · exact (stringToNPVariant_alloc_exact _ [3, 1, 4] hc).2 (List.replicate 3 7) rfl
  · exact (stringToNPVariant_alloc_exact (fun _ => none) [3, 1, 4]
      (by intro n buf h; cases h)).1 rfl
  · exact (stringToNPVariant_alloc_exact _ [] hc).2 [] rfl

/-- C9: under the probe-skip workaround, `GetNPArrayProperty` performs no
existence probe and returns exactly the host fetch's success/failure result;
without the workaround it probes first and returns failure without fetching
on a failed probe; `GetNPObjectProperty` always probes first and returns
failure without fetching on a failed probe. -/
theorem array_property_probe_skip (host : NPHost) (index : Int)
    (name : String) (output : NPVariant)
    (hpint : host.hasProperty (NPIdentifier.int index) = false)
    (hpstr : host.hasProperty (NPIdentifier.str name) = false) :
    (∀ (h2 : NPHost) (i : Int) (o : NPVariant),
      GetNPArrayProperty true h2 i o = h2.getProperty (NPIdentifier.int i)) ∧
    GetNPArrayProperty false host index output = (false, output) ∧
    GetNPObjectProperty host name output = (false, output) := by
  refine ⟨fun h2 i o => rfl, ?_, ?_⟩
  · simp [GetNPArrayProperty, hpint]
  · simp [GetNPObjectProperty, hpstr]

/-- Witness for C9: a host whose probe always fails and whose fetch
reports failure. -/
theorem array_property_probe_skip_witness :
    GetNPArrayProperty true
      ⟨fun _ => false, fun _ => (false, NPVariant.void)⟩ 5 NPVariant.void =
      (NPHost.mk (fun _ => false) (fun _ => (false, NPVariant.void))).getProperty
        (NPIdentifier.int 5) ∧
    GetNPArrayProperty false
      ⟨fun _ => false, fun _ => (false, NPVariant.void)⟩ 5 NPVariant.void =
      (false, NPVariant.void) ∧
    GetNPObjectProperty
      ⟨fun _ => false, fun _ => (false, NPVariant.void)⟩ "k" NPVariant.void =
      (false, NPVariant.void) := by
  have h := array_property_probe_skip
    ⟨fun _ => false, fun _ => (false, NPVariant.void)⟩ 5 "k" NPVariant.void
    rfl rfl
  exact ⟨h.1 ⟨fun _ => false, fun _ => (false, NPVariant.void)⟩ 5 NPVariant.void,
    h.2.1, h.2.2⟩

/-- C10: the base-implementation resolution operations are pure functions
of the object graph (the embedding returns no modified graph because the
source never writes `namespace_objects_` or `base_class_`); on a successful
`GetPropertyInner` the exception slot is returned exactly as on entry, the
base `GetAllPropertyNames` returns both slots unchanged, and the failing
`CallInner`/`ConstructInner` leave the result slot untouched. -/
theorem resolution_ops_frame (s : StaticObject) (instance_ : Nat)
    (name method : String) (args : List Var) (names : List Var)
    (exception result : Var)
    (hfound : s.HasPropertyInner name = true) :
    (s.GetPropertyInner instance_ name exception result).1 = true ∧
    (s.GetPropertyInner instance_ name exception result).2.1 = exception ∧
    s.GetAllPropertyNames names exception = (names, exception) ∧
    (s.CallInner instance_ method args exception result).2.2 = result ∧
    (s.ConstructInner instance_ args exception result).2.2 = result := by
  obtain ⟨w, hw⟩ := getPropertyInner_found instance_ name exception result s hfound
  exact ⟨by rw [hw], by rw [hw], getAllPropertyNames_frame names exception s,
    callInner_result_frame instance_ method args exception result s, rfl⟩

/-- Witness for C10: a node carrying "p" directly, with a pre-populated
exception slot. -/
theorem resolution_ops_frame_witness :
    ((StaticObject.mk [("p", .mk [] none)] none).GetPropertyInner 0 "p"
        (Var.string "pre") Var.undefined).1 = true ∧
    ((StaticObject.mk [("p", .mk [] none)] none).GetPropertyInner 0 "p"
        (Var.string "pre") Var.undefined).2.1 = Var.string "pre" ∧
    (StaticObject.mk [("p", .mk [] none)] none).GetAllPropertyNames
      [Var.string "n"] (Var.string "pre") =
      ([Var.string "n"], Var.string "pre") ∧
    ((StaticObject.mk [("p", .mk [] none)] none).CallInner 0 "m" []
        (Var.string "pre") Var.undefined).2.2 = Var.undefined ∧
    ((StaticObject.mk [("p", .mk [] none)] none).ConstructInner 0 []
        (Var.string "pre") Var.undefined).2.2 = Var.undefined :=
  resolution_ops_frame (.mk [("p", .mk [] none)] none) 0 "p" "m" []
    [Var.string "n"] (Var.string "pre") Var.undefined
    (by rw [hasPropertyInner_nil]; rfl)

end Glue
